import Mathlib

/-!
Verification of the Expense Tracker core logic.

The repository has two front-ends sharing duplicated core logic:
- expense_tracker.py (Tkinter desktop app, numpy statistics) — embedded in
  namespace Tk;
- expense_tracker_streamlit.py (Streamlit web app, pandas statistics) —
  embedded in namespace St.

Amounts are modelled as rationals (the source stores SQLite REALs and
computes with floats).  Dates and categories are plain strings, as in the
source schema.
-/

/-- An expense record, matching the `expenses` table row
`(id, amount, category, date, description)`.  The application always writes
a string description (possibly empty), so `description` is a plain `String`. -/
structure Expense where
  id : Nat
  amount : ℚ
  category : String
  date : String
  description : String
deriving Repr, DecidableEq

/-- The Expense Store: the `expenses` SQLite table plus its AUTOINCREMENT
counter.  `rows` is kept in insertion order. -/
structure Store where
  nextId : Nat
  rows : List Expense
deriving Repr, DecidableEq

/-- `add_expense` (both files): INSERT a new record; the id is assigned by
AUTOINCREMENT. -/
def add_expense (s : Store) (amount : ℚ) (category date description : String) : Store :=
  { nextId := s.nextId + 1,
    rows := s.rows ++ [⟨s.nextId, amount, category, date, description⟩] }

/-- `update_expense` (both files): `UPDATE expenses SET ... WHERE id=?`.
A non-matching id updates no row; the Python function returns None in all
cases, so the only caller-visible outcome is the new store. -/
def update_expense (s : Store) (i : Nat) (amount : ℚ)
    (category date description : String) : Store :=
  { s with rows := s.rows.map fun e =>
      if e.id = i then ⟨e.id, amount, category, date, description⟩ else e }

/-- `delete_expense` (both files): `DELETE FROM expenses WHERE id=?`.
A non-matching id deletes no row; again no value is returned. -/
def delete_expense (s : Store) (i : Nat) : Store :=
  { s with rows := s.rows.filter fun e => e.id ≠ i }

/-- The amounts column of a collection. -/
def amounts (es : List Expense) : List ℚ := es.map (·.amount)

/-- Arithmetic mean, as computed by `np.mean` / pandas `.mean()`:
sum divided by length. -/
def meanQ (l : List ℚ) : ℚ := l.sum / l.length

/-- Population variance, as computed by `np.var` (ddof = 0): the mean of the
squared deviations from the mean, i.e. division by n. -/
def popVarQ (l : List ℚ) : ℚ :=
  ((l.map fun a => (a - meanQ l) ^ 2).sum) / l.length

/-- Sample variance, as computed by pandas `.var()` (ddof = 1): division by
n − 1.  pandas yields NaN on a single row; `none` models that NaN. -/
def sampleVarQ (l : List ℚ) : Option ℚ :=
  if l.length < 2 then none
  else some (((l.map fun a => (a - meanQ l) ^ 2).sum) / ((l.length : ℚ) - 1))

/-- Minimum of the amounts, as `np.min` / `.min()` over a non-empty array
(the sources only call it on non-empty collections; 0 is a junk value for
the empty case). -/
def minQ : List ℚ → ℚ
  | [] => 0
  | a :: rest => rest.foldl min a

/-- Maximum of the amounts, as `np.max` / `.max()`. -/
def maxQ : List ℚ → ℚ
  | [] => 0
  | a :: rest => rest.foldl max a

/-- Median, as `np.median` / pandas `.median()`: sort, then take the middle
element (odd length) or the mean of the two middle elements (even length). -/
def medianQ (l : List ℚ) : ℚ :=
  if l.length % 2 = 1 then (l.insertionSort (· ≤ ·)).getD (l.length / 2) 0
  else ((l.insertionSort (· ≤ ·)).getD (l.length / 2 - 1) 0
        + (l.insertionSort (· ≤ ·)).getD (l.length / 2) 0) / 2

/-- Lexicographic strict order on codepoint lists: SQLite's BINARY collation
for `date >= ?` / `date <= ?` on TEXT, and likewise the chronological order
of the ISO `YYYY-MM-DD` dates the Streamlit file compares after
`pd.to_datetime`. -/
def strLtb : List Char → List Char → Bool
  | [], [] => false
  | [], _ :: _ => true
  | _ :: _, [] => false
  | a :: as, b :: bs => if a < b then true else if b < a then false else strLtb as bs

/-- `a <= b` in the BINARY collation. -/
def strLeb (a b : String) : Bool := strLtb a.data b.data || a == b

/-- SQLite `LIKE` pattern matching, as used by
`description LIKE '%kw%'` in expense_tracker.py: `%` matches any sequence,
`_` matches exactly one character, and other characters compare
case-insensitively (SQLite folds ASCII case only, which is what
`Char.toLower` does for ASCII input). -/
def likeMatch : List Char → List Char → Bool
  | [], s => s.isEmpty
  | p :: ps, s =>
    if p = '%' then
      likeMatch ps s ||
        match s with
        | [] => false
        | _ :: t => likeMatch (p :: ps) t
    else
      match s with
      | [] => false
      | c :: t => (decide (p = '_') || p.toLower == c.toLower) && likeMatch ps t
termination_by p s => (p.length, s.length)

/-- `k` contains no `LIKE` wildcard. -/
def noWild (k : String) : Bool := k.data.all fun c => !(c == '%' || c == '_')

/-- Case-insensitive prefix test on codepoint lists (after lowering). -/
def isPrefC : List Char → List Char → Bool
  | [], _ => true
  | _ :: _, [] => false
  | a :: as, b :: bs => (a == b) && isPrefC as bs

/-- Contiguous-sublist test on codepoint lists. -/
def containsSub (needle : List Char) : List Char → Bool
  | [] => isPrefC needle []
  | c :: t => isPrefC needle (c :: t) || containsSub needle t

/-- The predicate the spec states for the description filter: the keyword
occurs in the description case-insensitively as a (contiguous) substring. -/
def ciContains (kw s : String) : Bool :=
  containsSub (kw.data.map Char.toLower) (s.data.map Char.toLower)

/-- Python truthiness of an optional string argument: `if start_date:` runs
the clause only for a present, non-empty string. -/
def givenStr : Option String → Option String
  | some s => if s = "" then none else some s
  | none => none

/-- `if category and category != 'All':` — the category clause applies only
to a present, non-empty, non-sentinel category. -/
def givenCat : Option String → Option String
  | some s => if s = "" ∨ s = "All" then none else some s
  | none => none

namespace Tk

/-- `get_filtered_expenses` (expense_tracker.py): one SQL `WHERE`
conjunction over the table, with each clause guarded exactly as the Python
builds the query (`if start_date:` …, `if min_amount is not None:` …,
`description LIKE '%kw%'`).  Row order is the table's insertion order. -/
def get_filtered_expenses (s : Store) (start_date end_date category : Option String)
    (min_amount max_amount : Option ℚ) (desc_keyword : Option String) : List Expense :=
  s.rows.filter fun e =>
    (match givenStr start_date with
     | some v => strLeb v e.date
     | none => true)
    && (match givenStr end_date with
        | some v => strLeb e.date v
        | none => true)
    && (match givenCat category with
        | some v => e.category == v
        | none => true)
    && (match min_amount with
        | some v => decide (v ≤ e.amount)
        | none => true)
    && (match max_amount with
        | some v => decide (e.amount ≤ v)
        | none => true)
    && (match givenStr desc_keyword with
        | some k => likeMatch ('%' :: (k.data ++ ['%'])) e.description.data
        | none => true)

/-- The KPI dictionary built by `get_stats` in expense_tracker.py.  All
fields are numpy results over the amounts.  The dictionary also carries
`std` (an irrational square root, modelled separately by `get_stats_std`)
and `most_freq_cat` (whose tie-break depends on Python set iteration order
and is not specified; no claim concerns it). -/
structure Stats where
  total : ℚ
  average : ℚ
  median : ℚ
  min : ℚ
  max : ℚ
  var : ℚ
deriving Repr, DecidableEq

/-- `get_stats` (expense_tracker.py): `if not expenses: return {}` — the
empty dictionary is modelled by `none`; otherwise the numpy KPIs with
population (ddof = 0) variance. -/
def get_stats (es : List Expense) : Option Stats :=
  if es.isEmpty then none
  else some
    { total := (amounts es).sum
      average := meanQ (amounts es)
      median := medianQ (amounts es)
      min := minQ (amounts es)
      max := maxQ (amounts es)
      var := popVarQ (amounts es) }

/-- The `std` entry of the `get_stats` dictionary: `np.std`, the square
root of the population variance. -/
noncomputable def get_stats_std (es : List Expense) : ℝ :=
  Real.sqrt (popVarQ (amounts es))

/-- `detect_outliers` (expense_tracker.py): flag the ids of the rows with
`abs(row[1] - mean) > 2 * std`, where `mean = np.mean` and `std = np.std`
(population).  Over non-negative reals that comparison is equivalent to
`(amount - mean)^2 > 4 * var`, which keeps the definition executable over
ℚ; the equivalence with the square-root form is proved in
`abs_sub_gt_two_sqrt_iff` below. -/
def detect_outliers (es : List Expense) : Finset Nat :=
  ((es.filter fun e =>
      decide ((e.amount - meanQ (amounts es)) ^ 2 > 4 * popVarQ (amounts es))).map
    (·.id)).toFinset

end Tk

namespace St

/-- The KPI dictionary built by `get_stats` in expense_tracker_streamlit.py.
pandas `.var()` uses ddof = 1 and is NaN on a single row, hence the
`Option` for `var`; `std` is its square root, modelled by `get_stats_std`,
and `most_freq_cat` (pandas mode) is not needed by any claim. -/
structure Stats where
  total : ℚ
  average : ℚ
  median : ℚ
  min : ℚ
  max : ℚ
  var : Option ℚ
deriving Repr, DecidableEq

/-- `get_stats` (expense_tracker_streamlit.py): `if df.empty: return {}`,
otherwise pandas KPIs; note ddof = 1 for the variance. -/
def get_stats (es : List Expense) : Option Stats :=
  if es.isEmpty then none
  else some
    { total := (amounts es).sum
      average := meanQ (amounts es)
      median := medianQ (amounts es)
      min := minQ (amounts es)
      max := maxQ (amounts es)
      var := sampleVarQ (amounts es) }

/-- The `std` entry of the Streamlit dictionary: pandas `.std()`, the
square root of the ddof = 1 variance (NaN, i.e. `none`, on a single row). -/
noncomputable def get_stats_std (es : List Expense) : Option ℝ :=
  (sampleVarQ (amounts es)).map fun v => Real.sqrt (v : ℚ)

/-- `detect_outliers` (expense_tracker_streamlit.py): select the rows with
`amount > mean + 2*std` or `amount < mean - 2*std`, with `std` the pandas
(ddof = 1) standard deviation, and return the set of their ids.  With a
single row std is NaN, both comparisons are false, and nothing is flagged;
otherwise the disjunction is `|amount - mean| > 2*std`, equivalent over
non-negative reals to `(amount - mean)^2 > 4 * var` as above. -/
def detect_outliers (es : List Expense) : Finset Nat :=
  match sampleVarQ (amounts es) with
  | none => ∅
  | some v =>
    ((es.filter fun e =>
        decide ((e.amount - meanQ (amounts es)) ^ 2 > 4 * v)).map (·.id)).toFinset

/-- `filter_expenses` (expense_tracker_streamlit.py): successive DataFrame
row selections, one per supplied criterion.  `descMatch` abstracts the
pandas `str.contains(kw, case=False, na=False)` matcher (a case-insensitive
regex search; only its determinism matters to the claims about this
function).  `category` and `desc_keyword` reach the function as plain
strings from the widgets; dates arrive as `strftime` strings or None. -/
def filter_expenses (descMatch : String → String → Bool) (df : List Expense)
    (start_date end_date : Option String) (category : String)
    (min_amount max_amount : Option ℚ) (desc_keyword : String) : List Expense :=
  let df1 := match givenStr start_date with
    | some v => df.filter fun e => strLeb v e.date
    | none => df
  let df2 := match givenStr end_date with
    | some v => df1.filter fun e => strLeb e.date v
    | none => df1
  let df3 := match givenCat (some category) with
    | some v => df2.filter fun e => e.category == v
    | none => df2
  let df4 := match min_amount with
    | some v => df3.filter fun e => decide (v ≤ e.amount)
    | none => df3
  let df5 := match max_amount with
    | some v => df4.filter fun e => decide (e.amount ≤ v)
    | none => df4
  match givenStr (some desc_keyword) with
  | some k => df5.filter fun e => descMatch k e.description
  | none => df5

/-- One filter criteria set, bundling the arguments of `filter_expenses`. -/
structure Criteria where
  start_date : Option String
  end_date : Option String
  category : String
  min_amount : Option ℚ
  max_amount : Option ℚ
  desc_keyword : String

/-- `filter_expenses` applied to a bundled criteria set. -/
def filterBy (descMatch : String → String → Bool) (c : Criteria)
    (df : List Expense) : List Expense :=
  filter_expenses descMatch df c.start_date c.end_date c.category
    c.min_amount c.max_amount c.desc_keyword

/-- The conjunction of the row predicates of one criteria set. -/
def matchesC (descMatch : String → String → Bool) (c : Criteria)
    (e : Expense) : Bool :=
  (match givenStr c.start_date with
   | some v => strLeb v e.date
   | none => true)
  && (match givenStr c.end_date with
      | some v => strLeb e.date v
      | none => true)
  && (match givenCat (some c.category) with
      | some v => e.category == v
      | none => true)
  && (match c.min_amount with
      | some v => decide (v ≤ e.amount)
      | none => true)
  && (match c.max_amount with
      | some v => decide (e.amount ≤ v)
      | none => true)
  && (match givenStr (some c.desc_keyword) with
      | some k => descMatch k e.description
      | none => true)

end St

/-!  Import/export adapter (expense_tracker.py `import_data` / `export_csv`;
the Streamlit import block at lines 214–226 is the same loop). -/

/-- One tabular row as the import loop sees it after
`pd.read_csv`/`pd.read_excel`: `float(row['Amount'])` either yields a
number or raises, which `amount = none` models; `Category`/`Date` are
stringified and `Description` defaults to the empty string
(`row.get('Description', '')`). -/
structure RawRow where
  amount : Option ℚ
  category : String
  date : String
  description : String
deriving Repr, DecidableEq

/-- `import_data` / the Streamlit upload block: iterate over the parsed
rows, calling `add_expense` per row (each call commits).  On the first row
whose Amount fails to parse the exception aborts the loop and an error is
shown (`false`); the rows already added stay in the store.  `true` models
the success message. -/
def import_data (s : Store) : List RawRow → Store × Bool
  | [] => (s, true)
  | r :: rest =>
    match r.amount with
    | none => (s, false)
    | some a => import_data (add_expense s a r.category r.date r.description) rest

/-- The default NA markers of `pd.read_csv` / `pd.read_excel`
(`na_filter=True`, `keep_default_na=True`): a text cell holding one of
these — in particular an empty cell — is coerced to the float NaN when the
file is read back. -/
def naLike (s : String) : Bool :=
  ["", "#N/A", "#N/A N/A", "#NA", "-1.#IND", "-1.#QNAN", "-NaN", "-nan",
   "1.#IND", "1.#QNAN", "<NA>", "N/A", "NA", "NULL", "NaN", "None",
   "n/a", "nan", "null"].contains s

/-- What one exported text cell becomes after the file round trip and
the `str(...)` of the import loop: an NA-like cell is read back as NaN and
stringified to "nan"; every other cell survives verbatim. -/
def roundTripCell (s : String) : String := if naLike s then "nan" else s

/-- `export_csv` / `export_excel`: the currently filtered collection is
written with columns `ID, Amount, Category, Date, Description`; `ID` is
informational and ignored on re-import, so the round trip is modelled by
the rows the importer will read back.  pandas round-trips the numeric
Amount exactly, but each text cell passes through the NA coercion of
`roundTripCell` (e.g. an exported empty Description is read back as NaN
and stringified to "nan" by the import loop). -/
def export_rows (es : List Expense) : List RawRow :=
  es.map fun e =>
    { amount := some e.amount, category := roundTripCell e.category,
      date := roundTripCell e.date, description := roundTripCell e.description }

/-- The caller-relevant fields of a record: everything except the
store-assigned id. -/
def fieldsOf (e : Expense) : ℚ × String × String × String :=
  (e.amount, e.category, e.date, e.description)

/-- The fields a record comes back with after export and re-import: the
amount survives, each text field passes through the NA coercion. -/
def exportedFieldsOf (e : Expense) : ℚ × String × String × String :=
  (e.amount, roundTripCell e.category, roundTripCell e.date,
    roundTripCell e.description)

/-!  Period aggregator (`report_period`, expense_tracker.py lines 417–442;
the Streamlit report block is the same groupby).  `df.groupby(period)['Amount'].sum()`
produces, for each distinct period key, the sum of the amounts of the rows
in that period; `df.empty` short-circuits to no report.  pandas orders the
groups chronologically, which permutes the per-period totals but not their
sum — the only aspect the claims use. -/

/-- The grouped per-period totals: one pair per distinct key, carrying the
sum of the amounts of the rows with that key. -/
def report_period (key : Expense → String) (es : List Expense) : List (String × ℚ) :=
  ((es.map key).dedup).map fun k =>
    (k, ((es.filter fun e => key e = k).map (·.amount)).sum)

/-- The four report granularities (`'W' | 'M' | 'Q' | 'Y'`). -/
inductive Granularity
  | W
  | M
  | Q
  | Y

/-- Numeric value of an ASCII digit. -/
def digitVal (c : Char) : Nat := c.toNat - '0'.toNat

/-- Year of a `YYYY-MM-DD` string. -/
def yearOf (d : String) : Nat :=
  (d.data.take 4).foldl (fun n c => 10 * n + digitVal c) 0

/-- Month of a `YYYY-MM-DD` string. -/
def monthOf (d : String) : Nat :=
  10 * digitVal (d.data.getD 5 '0') + digitVal (d.data.getD 6 '0')

/-- Day of month of a `YYYY-MM-DD` string. -/
def dayOf (d : String) : Nat :=
  10 * digitVal (d.data.getD 8 '0') + digitVal (d.data.getD 9 '0')

/-- Days since 1970-01-01 of a civil date (standard civil-calendar day
count, matching pandas timestamps). -/
def daysFromCivil (y m d : Int) : Int :=
  let y2 := if m ≤ 2 then y - 1 else y
  let era := (if 0 ≤ y2 then y2 else y2 - 399) / 400
  let yoe := y2 - era * 400
  let mp := (m + 9) % 12
  let doy := (153 * mp + 2) / 5 + d - 1
  let doe := yoe * 365 + yoe / 4 - yoe / 100 + doy
  era * 146097 + doe - 719468

/-- Index of the W-SUN week (pandas `to_period('W')` default: weeks ending
Sunday) containing a date. -/
def weekIndex (d : String) : Int :=
  Int.fdiv (daysFromCivil (yearOf d) (monthOf d) (dayOf d) + 3) 7

/-- The period key of a date under each granularity, mirroring
`df['Date'].dt.to_period('W'|'M'|'Q'|'Y')`: two dates get the same key iff
they fall in the same calendar week / month / quarter / year. -/
def periodOf : Granularity → String → String
  | Granularity.Y, d => d.take 4
  | Granularity.M, d => d.take 7
  | Granularity.Q, d => d.take 4 ++ "Q" ++ toString ((monthOf d - 1) / 3 + 1)
  | Granularity.W, d => toString (weekIndex d)

/-!  Spec-side store interface for update/delete (§4.1, §7 of the spec). -/

/-- Modelled from the spec: `update(id, amount, category, date, description)
-> success | NotFound` — the operation the spec prescribes reports NotFound
for an unknown id.  The source's `update_expense` has no such result
channel (the Python function returns None unconditionally). -/
def update_spec (s : Store) (i : Nat) (amount : ℚ)
    (category date description : String) : Except Unit Store :=
  if s.rows.any fun e => e.id = i then
    Except.ok (update_expense s i amount category date description)
  else Except.error ()

/-- Modelled from the spec: `delete(id) -> success | NotFound`; same
interface remark as for `update_spec`. -/
def delete_spec (s : Store) (i : Nat) : Except Unit Store :=
  if s.rows.any fun e => e.id = i then Except.ok (delete_expense s i)
  else Except.error ()

/-- The filter predicate exactly as the spec words it (§4.2), for comparison
with the source's `get_filtered_expenses`: every clause coincides with the
source's except the description clause, which the spec states as
case-insensitive substring containment. -/
def Tk.matchesSpec (start_date end_date category : Option String)
    (min_amount max_amount : Option ℚ) (desc_keyword : Option String)
    (e : Expense) : Bool :=
  (match givenStr start_date with
   | some v => strLeb v e.date
   | none => true)
  && (match givenStr end_date with
      | some v => strLeb e.date v
      | none => true)
  && (match givenCat category with
      | some v => e.category == v
      | none => true)
  && (match min_amount with
      | some v => decide (v ≤ e.amount)
      | none => true)
  && (match max_amount with
      | some v => decide (e.amount ≤ v)
      | none => true)
  && (match givenStr desc_keyword with
      | some k => ciContains k e.description
      | none => true)

/-- The keyword criterion, when supplied, holds no `LIKE` wildcard. -/
def noWildOpt : Option String → Bool
  | some k => noWild k
  | none => true

/-!  Concrete fixtures used by counterexamples and witnesses. -/

/-- A fresh store. -/
def store0 : Store := ⟨1, []⟩

/-- A well-formed import row. -/
def rowOk : RawRow := ⟨some 5, "Food", "2024-01-01", "lunch"⟩

/-- An import row whose Amount fails to parse. -/
def rowBad : RawRow := ⟨none, "Food", "2024-01-02", "oops"⟩

/-- A store holding the single record with id 1. -/
def store1 : Store := ⟨2, [⟨1, 5, "Food", "2024-01-01", ""⟩]⟩

/-- A store holding one record whose description is "abc". -/
def storeAbc : Store := ⟨2, [⟨1, 5, "Food", "2024-01-01", "abc"⟩]⟩

/-- Six records with amounts 0, 0, 0, 0, 1, 3: here record 6 deviates from
the mean by more than twice the population standard deviation but not by
more than twice the sample (ddof = 1) standard deviation. -/
def ex6 : List Expense :=
  [⟨1, 0, "Food", "2024-01-01", ""⟩, ⟨2, 0, "Food", "2024-01-02", ""⟩,
   ⟨3, 0, "Food", "2024-01-03", ""⟩, ⟨4, 0, "Food", "2024-01-04", ""⟩,
   ⟨5, 1, "Food", "2024-01-05", ""⟩, ⟨6, 3, "Food", "2024-01-06", ""⟩]

/-- Two records with amounts 0 and 4: population variance 4, sample
variance 8. -/
def exPair : List Expense :=
  [⟨1, 0, "Food", "2024-01-01", ""⟩, ⟨2, 4, "Cafe", "2024-01-02", ""⟩]

/-- One record, amount 7. -/
def exConst : List Expense := [⟨1, 7, "Food", "2024-01-01", ""⟩]

/-- Two records in different months. -/
def exMonths : List Expense :=
  [⟨1, 5, "Food", "2024-01-31", ""⟩, ⟨2, 7, "Rent", "2024-02-01", ""⟩]

/-!  Claim C4: statistics over the empty collection. -/

/-- C4: both Statistics Engines return the explicit empty KPI result (the
empty dictionary, `none`) on the empty collection — and a populated result
on every non-empty collection, so the empty marker is never a zero-valued
KPI set. -/
theorem C4_empty_stats :
    Tk.get_stats [] = none ∧ St.get_stats [] = none ∧
    ∀ es : List Expense, es ≠ [] →
      (Tk.get_stats es).isSome = true ∧ (St.get_stats es).isSome = true := by
  refine ⟨rfl, rfl, fun es h => ?_⟩
  have hne : es.isEmpty = false := by simpa [List.isEmpty_iff] using h
  simp [Tk.get_stats, St.get_stats, hne]

/-- Witness for C4 at a concrete non-empty collection. -/
theorem C4_empty_stats_witness :
    (Tk.get_stats exConst).isSome = true ∧ (St.get_stats exConst).isSome = true :=
  C4_empty_stats.2.2 exConst (by decide)

/-!  Claim C1: behaviour of the import on a malformed row. -/

/-- C1 counterexample: importing a file with one valid row followed by one
malformed row reports the failure, yet the record created from the valid
row remains committed — the resulting store differs from the original and
holds one record, refuting "zero rows committed". -/
theorem C1_counterexample :
    (import_data store0 [rowOk, rowBad]).2 = false ∧
    (import_data store0 [rowOk, rowBad]).1 ≠ store0 ∧
    (import_data store0 [rowOk, rowBad]).1.rows.length = 1 := by
  decide

/-- C1 amended: the import stops at the first malformed row and reports an
error, but every valid row before it has already been committed (and the
rows from the malformed one on are not): the result is exactly the store
obtained by importing the prefix of valid rows. -/
theorem C1_amended (s : Store) (pre : List RawRow) (bad : RawRow) (post : List RawRow)
    (hpre : ∀ r ∈ pre, r.amount.isSome = true) (hbad : bad.amount = none) :
    import_data s (pre ++ bad :: post) = ((import_data s pre).1, false) ∧
    (import_data s pre).2 = true ∧
    (import_data s pre).1.rows.length = s.rows.length + pre.length := by
  induction pre generalizing s with
  | nil => simp [import_data, hbad]
  | cons r t ih =>
    obtain ⟨a, ha⟩ := Option.isSome_iff_exists.mp (hpre r (List.mem_cons_self r t))
    have ht : ∀ x ∈ t, x.amount.isSome = true :=
      fun x hx => hpre x (List.mem_cons_of_mem r hx)
    have h := ih (add_expense s a r.category r.date r.description) ht
    simp only [List.cons_append, import_data, ha]
    refine ⟨h.1, h.2.1, ?_⟩
    rw [h.2.2]
    simp [add_expense]
    omega

/-- Witness for C1 amended at a concrete two-row import. -/
theorem C1_amended_witness :
    import_data store0 ([rowOk] ++ rowBad :: []) = ((import_data store0 [rowOk]).1, false) ∧
    (import_data store0 [rowOk]).2 = true ∧
    (import_data store0 [rowOk]).1.rows.length = store0.rows.length + [rowOk].length :=
  C1_amended store0 [rowOk] rowBad [] (by decide) (by decide)

/-!  Claim C9: export followed by import. -/

/-- Importing the export of a collection succeeds and appends one fresh
record per exported row, with the text fields passed through the NA
coercion of the file round trip. -/
lemma import_export_rows (es : List Expense) : ∀ s : Store,
    (import_data s (export_rows es)).2 = true ∧
    ∃ t, (import_data s (export_rows es)).1.rows = s.rows ++ t ∧
      t.map fieldsOf = es.map exportedFieldsOf := by
  induction es with
  | nil =>
    intro s
    exact ⟨rfl, [], by simp [import_data, export_rows], rfl⟩
  | cons e es ih =>
    intro s
    obtain ⟨h1, t, ht, hf⟩ := ih (add_expense s e.amount (roundTripCell e.category)
      (roundTripCell e.date) (roundTripCell e.description))
    refine ⟨?_, (⟨s.nextId, e.amount, roundTripCell e.category, roundTripCell e.date,
      roundTripCell e.description⟩ : Expense) :: t, ?_, ?_⟩
    · simpa only [export_rows, List.map_cons, import_data] using h1
    · have hrows : (import_data (add_expense s e.amount (roundTripCell e.category)
          (roundTripCell e.date) (roundTripCell e.description))
          (export_rows es)).1.rows = s.rows ++
            ((⟨s.nextId, e.amount, roundTripCell e.category, roundTripCell e.date,
              roundTripCell e.description⟩ : Expense) :: t) := by
        rw [ht]
        simp [add_expense]
      simpa only [export_rows, List.map_cons, import_data] using hrows
    · simp only [List.map_cons, hf, fieldsOf, exportedFieldsOf]

/-- C9 counterexample: exporting the record whose description is empty,
then importing the file back, does grow the store by one, but the imported
record's description is "nan", not the original "": the empty Description
cell is read back as NaN by pandas and stringified by the import loop, so
the round trip does not preserve the description. -/
theorem C9_na_description_counterexample :
    ((import_data store0 (export_rows exConst)).1.rows.drop
        store0.rows.length).map fieldsOf ≠ exConst.map fieldsOf ∧
    ((import_data store0 (export_rows exConst)).1.rows.drop
        store0.rows.length).map (·.description) = ["nan"] ∧
    exConst.map (·.description) = [""] ∧
    (import_data store0 (export_rows exConst)).1.rows.length
      = store0.rows.length + exConst.length := by
  decide

/-- C9 amended: exporting any (filtered) collection and importing the
exported file succeeds and grows the store by exactly the exported row
count; the appended records preserve the amount row by row, while each
text field (category, date, description) survives verbatim unless its
value is one of pandas' default NA markers — in particular an empty
description — in which case it comes back as the string "nan".  When no
text field of the collection is NA-like, all four fields are preserved
exactly (only the ids are newly assigned). -/
theorem C9_export_import_amended (s : Store) (es : List Expense) :
    (import_data s (export_rows es)).2 = true ∧
    (import_data s (export_rows es)).1.rows.length = s.rows.length + es.length ∧
    ((import_data s (export_rows es)).1.rows.drop s.rows.length).map fieldsOf
      = es.map exportedFieldsOf ∧
    ((∀ e ∈ es, naLike e.category = false ∧ naLike e.date = false ∧
        naLike e.description = false) →
      ((import_data s (export_rows es)).1.rows.drop s.rows.length).map fieldsOf
        = es.map fieldsOf) := by
  obtain ⟨h1, t, ht, hf⟩ := import_export_rows es s
  have hlen : t.length = es.length := by
    have hc := congrArg List.length hf
    simpa using hc
  have hdrop : ((import_data s (export_rows es)).1.rows.drop
      s.rows.length).map fieldsOf = es.map exportedFieldsOf := by
    rw [ht, List.drop_left, hf]
  refine ⟨h1, ?_, hdrop, ?_⟩
  · rw [ht]
    simp [hlen]
  · intro h
    rw [hdrop]
    apply List.map_congr_left
    intro e he
    obtain ⟨hc, hd, hds⟩ := h e he
    simp [exportedFieldsOf, fieldsOf, roundTripCell, hc, hd, hds]

/-- Witness for C9 amended: a record with no NA-like text field round-trips
with all four fields preserved. -/
theorem C9_export_import_amended_witness :
    ((import_data store0 (export_rows storeAbc.rows)).1.rows.drop
        store0.rows.length).map fieldsOf = storeAbc.rows.map fieldsOf :=
  (C9_export_import_amended store0 storeAbc.rows).2.2.2 (by decide)

/-!  Claim C5: update/delete on an unknown id. -/

/-- C5 counterexample: on a store whose only record has id 1, the update
call for the absent id 2 returns exactly the same (unchanged) store as the
successful update of id 1, and deleting id 2 likewise just returns the
store: the source functions return None unconditionally and report no
NotFound error, although the spec-modelled operations yield one. -/
theorem C5_counterexample :
    update_expense store1 2 5 "Food" "2024-01-01" "" = store1 ∧
    update_expense store1 1 5 "Food" "2024-01-01" "" = store1 ∧
    delete_expense store1 2 = store1 ∧
    update_spec store1 2 5 "Food" "2024-01-01" "" = Except.error () ∧
    delete_spec store1 2 = Except.error () :=
  ⟨by decide, by decide, by decide, rfl, rfl⟩

/-- C5 amended: update and delete on an id absent from the store are silent
no-ops — the store is completely unchanged, but no NotFound error reaches
the caller (the spec-side operations show what a NotFound report would
be). -/
theorem C5_amended (s : Store) (i : Nat) (a : ℚ) (c d ds : String)
    (h : ∀ e ∈ s.rows, e.id ≠ i) :
    update_expense s i a c d ds = s ∧ delete_expense s i = s ∧
    update_spec s i a c d ds = Except.error () ∧
    delete_spec s i = Except.error () := by
  have hany : (s.rows.any fun e => e.id = i) = false := by
    simp only [List.any_eq_false, decide_eq_true_eq]
    exact h
  have hupd : (s.rows.map fun e =>
      if e.id = i then (⟨e.id, a, c, d, ds⟩ : Expense) else e) = s.rows := by
    conv_rhs => rw [← List.map_id s.rows]
    exact List.map_congr_left fun e he => by rw [if_neg (h e he)]; rfl
  have hdel : (s.rows.filter fun e => e.id ≠ i) = s.rows := by
    rw [List.filter_eq_self]
    intro e he
    simpa using h e he
  refine ⟨?_, ?_, ?_, ?_⟩
  · show Store.mk s.nextId _ = s
    rw [hupd]
  · show Store.mk s.nextId _ = s
    rw [hdel]
  · simp [update_spec, hany]
  · simp [delete_spec, hany]

/-- Witness for C5 amended at a concrete absent id. -/
theorem C5_amended_witness :
    update_expense store1 2 9 "Cafe" "2024-02-02" "x" = store1 ∧
    delete_expense store1 2 = store1 ∧
    update_spec store1 2 9 "Cafe" "2024-02-02" "x" = Except.error () ∧
    delete_spec store1 2 = Except.error () :=
  C5_amended store1 2 9 "Cafe" "2024-02-02" "x" (by decide)

/-!  Variance helpers. -/

/-- A sum of squared deviations is non-negative. -/
lemma sq_dev_sum_nonneg (l : List ℚ) (m : ℚ) :
    0 ≤ (l.map fun a => (a - m) ^ 2).sum := by
  apply List.sum_nonneg
  intro x hx
  obtain ⟨a, _, rfl⟩ := List.mem_map.mp hx
  positivity

/-- The population variance is non-negative. -/
lemma popVarQ_nonneg (l : List ℚ) : 0 ≤ popVarQ l := by
  unfold popVarQ
  exact div_nonneg (sq_dev_sum_nonneg l _) (by positivity)

/-- A defined (n ≥ 2) sample variance is non-negative. -/
lemma sampleVarQ_some_nonneg (l : List ℚ) (v : ℚ) (h : sampleVarQ l = some v) :
    0 ≤ v := by
  unfold sampleVarQ at h
  split at h
  · exact absurd h (by simp)
  · next hlen =>
    rw [Option.some.injEq] at h
    subst h
    apply div_nonneg (sq_dev_sum_nonneg l _)
    have h2 : (2 : ℚ) ≤ (l.length : ℚ) := by exact_mod_cast Nat.not_lt.mp hlen
    linarith

/-- Sum of a constant list. -/
lemma list_sum_const (l : List ℚ) (c : ℚ) (h : ∀ x ∈ l, x = c) :
    l.sum = l.length * c := by
  induction l with
  | nil => simp
  | cons a t ih =>
    rw [List.sum_cons, h a (List.mem_cons_self a t),
      ih fun x hx => h x (List.mem_cons_of_mem a hx)]
    push_cast [List.length_cons]
    ring

/-- Mean of a non-empty constant list. -/
lemma meanQ_const (l : List ℚ) (c : ℚ) (hne : l ≠ []) (h : ∀ x ∈ l, x = c) :
    meanQ l = c := by
  have hl : l.length ≠ 0 := fun h0 => hne (List.length_eq_zero.mp h0)
  have hn : ((l.length : ℚ)) ≠ 0 := Nat.cast_ne_zero.mpr hl
  unfold meanQ
  rw [list_sum_const l c h, mul_comm, mul_div_assoc, div_self hn, mul_one]

/-!  Claim C10: collections with zero amount spread. -/

/-- C10: in any non-empty collection whose records all share one amount,
neither detector flags anything: the deviation is 0, the threshold
comparison is strict, and (for the Streamlit detector) a singleton's NaN
standard deviation flags nothing either. -/
theorem C10_constant_no_outliers (es : List Expense) (c : ℚ) (h1 : es ≠ [])
    (h2 : ∀ e ∈ es, e.amount = c) :
    Tk.detect_outliers es = ∅ ∧ St.detect_outliers es = ∅ := by
  have hm : ∀ x ∈ amounts es, x = c := by
    intro x hx
    obtain ⟨e, he, rfl⟩ := List.mem_map.mp hx
    exact h2 e he
  have hne : amounts es ≠ [] := by
    simpa [amounts] using h1
  have hmean : meanQ (amounts es) = c := meanQ_const _ c hne hm
  have hfilter : ∀ v : ℚ, 0 ≤ v →
      (es.filter fun e =>
        decide ((e.amount - meanQ (amounts es)) ^ 2 > 4 * v)) = [] := by
    intro v hv
    rw [List.filter_eq_nil_iff]
    intro e he
    simp only [decide_eq_true_eq, not_lt, hmean, h2 e he, sub_self]
    simpa using mul_nonneg (by norm_num : (0:ℚ) ≤ 4) hv
  constructor
  · unfold Tk.detect_outliers
    rw [hfilter _ (popVarQ_nonneg _)]
    rfl
  · unfold St.detect_outliers
    cases hsv : sampleVarQ (amounts es) with
    | none => rfl
    | some v =>
      have hz := hfilter v (sampleVarQ_some_nonneg _ _ hsv)
      simp [hz]

/-- Witness for C10 at a singleton collection. -/
theorem C10_constant_no_outliers_witness :
    Tk.detect_outliers exConst = ∅ ∧ St.detect_outliers exConst = ∅ :=
  C10_constant_no_outliers exConst 7 (by decide) (by decide)

/-!  Claim C7: the filter is idempotent and commutative. -/

/-- The chained Streamlit filter equals one pass with the conjoined
predicate. -/
lemma St.filterBy_eq_filter (m : String → String → Bool) (c : St.Criteria)
    (df : List Expense) :
    St.filterBy m c df = df.filter (St.matchesC m c) := by
  unfold St.filterBy St.filter_expenses St.matchesC
  rcases h1 : givenStr c.start_date with _ | v1 <;>
    rcases h2 : givenStr c.end_date with _ | v2 <;>
    rcases h3 : givenCat (some c.category) with _ | v3 <;>
    rcases h4 : c.min_amount with _ | v4 <;>
    rcases h5 : c.max_amount with _ | v5 <;>
    rcases h6 : givenStr (some c.desc_keyword) with _ | v6 <;>
    simp only [List.filter_filter] <;>
    first
      | exact List.filter_congr fun e he => by
          simp [Bool.and_comm, Bool.and_assoc, Bool.and_left_comm]
      | simp

/-- C7: applying the same criteria twice equals applying them once;
applying criteria A then B equals B then A, and both equal one filter with
the conjunction of the two predicate sets. -/
theorem C7_filter_idempotent_commutative (m : String → String → Bool)
    (A B : St.Criteria) (df : List Expense) :
    St.filterBy m A (St.filterBy m A df) = St.filterBy m A df ∧
    St.filterBy m B (St.filterBy m A df) = St.filterBy m A (St.filterBy m B df) ∧
    St.filterBy m B (St.filterBy m A df)
      = df.filter fun e => St.matchesC m A e && St.matchesC m B e := by
  simp only [St.filterBy_eq_filter, List.filter_filter]
  refine ⟨?_, ?_, ?_⟩
  · exact List.filter_congr fun e he => by
      cases St.matchesC m A e <;> simp
  · exact List.filter_congr fun e he => by
      cases St.matchesC m A e <;> cases St.matchesC m B e <;> simp
  · exact List.filter_congr fun e he => by
      cases St.matchesC m A e <;> cases St.matchesC m B e <;> simp

/-!  Claim C8: the period totals sum to the statistics total. -/

/-- Splitting a sum of amounts along a Boolean predicate. -/
lemma sum_map_filter_split (p : Expense → Bool) (es : List Expense) :
    ((es.filter p).map (·.amount)).sum
      + ((es.filter fun e => !(p e)).map (·.amount)).sum
      = (es.map (·.amount)).sum := by
  induction es with
  | nil => simp
  | cons a t ih =>
    cases hp : p a <;>
      simp only [List.filter_cons, hp, Bool.not_true, Bool.not_false, if_pos, if_neg,
        Bool.false_eq_true, not_false_eq_true, List.map_cons, List.sum_cons, ite_true,
        ite_false] <;>
      linarith [ih]

/-- Summing group totals over any duplicate-free key list covering the
collection recovers the total of the amounts. -/
lemma groups_sum (key : Expense → String) (L : List String) :
    ∀ es : List Expense, L.Nodup → (∀ e ∈ es, key e ∈ L) →
    (L.map fun k => ((es.filter fun e => key e = k).map (·.amount)).sum).sum
      = (es.map (·.amount)).sum := by
  induction L with
  | nil =>
    intro es _ h
    have hes : es = [] := by
      cases es with
      | nil => rfl
      | cons a t => exact absurd (h a (by simp)) (by simp)
    subst hes
    simp
  | cons k L ih =>
    intro es hnd h
    have hk : k ∉ L := (List.nodup_cons.mp hnd).1
    have hndL : L.Nodup := (List.nodup_cons.mp hnd).2
    have hterm : ∀ k' ∈ L,
        ((es.filter fun e => key e = k').map (·.amount)).sum
          = (((es.filter fun e => !(decide (key e = k))).filter
              fun e => key e = k').map (·.amount)).sum := by
      intro k' hk'
      have hkk : k' ≠ k := fun hkeq => hk (hkeq ▸ hk')
      rw [List.filter_filter]
      refine congrArg _ (congrArg _ (List.filter_congr ?_))
      intro e _
      cases hke : decide (key e = k') with
      | false => simp [hke]
      | true =>
        have hkey : key e = k' := of_decide_eq_true hke
        have hnot : decide (key e = k) = false :=
          decide_eq_false fun hh => hkk (hkey.symm.trans hh)
        simp [hke, hnot]
    have hmem : ∀ e ∈ es.filter fun e => !(decide (key e = k)), key e ∈ L := by
      intro e he
      obtain ⟨hees, hne⟩ := List.mem_filter.mp he
      have : key e ≠ k := by simpa using hne
      cases List.mem_cons.mp (h e hees) with
      | inl hh => exact absurd hh this
      | inr hh => exact hh
    calc
      ((k :: L).map fun k' =>
          ((es.filter fun e => key e = k').map (·.amount)).sum).sum
        = ((es.filter fun e => key e = k).map (·.amount)).sum
          + (L.map fun k' =>
              ((es.filter fun e => key e = k').map (·.amount)).sum).sum := by
          simp
      _ = ((es.filter fun e => key e = k).map (·.amount)).sum
          + (L.map fun k' =>
              (((es.filter fun e => !(decide (key e = k))).filter
                fun e => key e = k').map (·.amount)).sum).sum := by
          rw [List.map_congr_left hterm]
      _ = ((es.filter fun e => key e = k).map (·.amount)).sum
          + ((es.filter fun e => !(decide (key e = k))).map (·.amount)).sum := by
          rw [ih _ hndL hmem]
      _ = (es.map (·.amount)).sum :=
          sum_map_filter_split (fun e => decide (key e = k)) es

/-- C8: for every non-empty collection and every granularity in
{week, month, quarter, year}, the per-period totals of the Period
Aggregator sum to exactly the Statistics Engine's total for the same
collection. -/
theorem C8_period_totals_match_stats (g : Granularity) (es : List Expense)
    (h : es ≠ []) :
    ∃ st, Tk.get_stats es = some st ∧
      ((report_period (fun e => periodOf g e.date) es).map Prod.snd).sum
        = st.total := by
  have hne : es.isEmpty = false := by simpa [List.isEmpty_iff] using h
  refine ⟨⟨(amounts es).sum, meanQ (amounts es), medianQ (amounts es),
    minQ (amounts es), maxQ (amounts es), popVarQ (amounts es)⟩,
    by simp [Tk.get_stats, hne], ?_⟩
  show ((report_period (fun e => periodOf g e.date) es).map Prod.snd).sum
    = (amounts es).sum
  simp only [report_period, List.map_map]
  have hcov : ∀ e ∈ es,
      (fun e => periodOf g e.date) e ∈ (es.map fun e => periodOf g e.date).dedup := by
    intro e he
    rw [List.mem_dedup]
    exact List.mem_map_of_mem _ he
  have := groups_sum (fun e => periodOf g e.date)
    ((es.map fun e => periodOf g e.date).dedup) es (List.nodup_dedup _) hcov
  simpa [Function.comp, amounts] using this

/-- Witness for C8 at a concrete collection spanning two months. -/
theorem C8_period_totals_witness :
    ∃ st, Tk.get_stats exMonths = some st ∧
      ((report_period (fun e => periodOf Granularity.M e.date) exMonths).map
        Prod.snd).sum = st.total :=
  C8_period_totals_match_stats Granularity.M exMonths (by decide)

/-!  Statistics and outlier-detector lemmas (claims C2 and C3). -/

/-- The populated KPI record the desktop engine returns on a non-empty
collection. -/
lemma Tk.get_stats_someTk (es : List Expense) (hne : es.isEmpty = false) :
    Tk.get_stats es = some ⟨(amounts es).sum, meanQ (amounts es),
      medianQ (amounts es), minQ (amounts es), maxQ (amounts es),
      popVarQ (amounts es)⟩ := by
  simp [Tk.get_stats, hne]

/-- The populated KPI record the Streamlit engine returns on a non-empty
collection. -/
lemma St.get_stats_someSt (es : List Expense) (hne : es.isEmpty = false) :
    St.get_stats es = some ⟨(amounts es).sum, meanQ (amounts es),
      medianQ (amounts es), minQ (amounts es), maxQ (amounts es),
      sampleVarQ (amounts es)⟩ := by
  simp [St.get_stats, hne]

/-- Membership in the desktop flagged set, in the executable squared form. -/
lemma Tk.mem_detect_outliersTk (es : List Expense) (i : Nat) :
    i ∈ Tk.detect_outliers es ↔
      ∃ e ∈ es, e.id = i ∧
        4 * popVarQ (amounts es) < (e.amount - meanQ (amounts es)) ^ 2 := by
  unfold Tk.detect_outliers
  constructor
  · intro hi
    rw [List.mem_toFinset] at hi
    obtain ⟨e, he, hid⟩ := List.mem_map.mp hi
    obtain ⟨hees, hcond⟩ := List.mem_filter.mp he
    exact ⟨e, hees, hid, of_decide_eq_true hcond⟩
  · rintro ⟨e, hees, hid, hcond⟩
    rw [List.mem_toFinset]
    exact List.mem_map.mpr ⟨e, List.mem_filter.mpr ⟨hees, decide_eq_true hcond⟩, hid⟩

/-- Membership in the Streamlit flagged set when the sample variance is
defined. -/
lemma St.mem_detect_outliersSt (es : List Expense) (v : ℚ)
    (hv : sampleVarQ (amounts es) = some v) (i : Nat) :
    i ∈ St.detect_outliers es ↔
      ∃ e ∈ es, e.id = i ∧ 4 * v < (e.amount - meanQ (amounts es)) ^ 2 := by
  unfold St.detect_outliers
  simp only [hv]
  constructor
  · intro hi
    rw [List.mem_toFinset] at hi
    obtain ⟨e, he, hid⟩ := List.mem_map.mp hi
    obtain ⟨hees, hcond⟩ := List.mem_filter.mp he
    exact ⟨e, hees, hid, of_decide_eq_true hcond⟩
  · rintro ⟨e, hees, hid, hcond⟩
    rw [List.mem_toFinset]
    exact List.mem_map.mpr ⟨e, List.mem_filter.mpr ⟨hees, decide_eq_true hcond⟩, hid⟩

/-- The source's comparison `|x − m| > 2·√v` (run on real numbers) is
equivalent to the executable rational comparison `(x − m)² > 4·v`. -/
lemma two_sqrt_lt_abs_iff (x m v : ℚ) (hv : 0 ≤ v) :
    2 * Real.sqrt (v : ℝ) < |(x : ℝ) - (m : ℝ)| ↔ 4 * v < (x - m) ^ 2 := by
  have hv' : (0 : ℝ) ≤ (v : ℝ) := by exact_mod_cast hv
  have h1 : Real.sqrt (4 * (v : ℝ)) = 2 * Real.sqrt (v : ℝ) := by
    rw [show (4 : ℝ) * v = 2 ^ 2 * v by ring,
      Real.sqrt_mul (by norm_num : (0:ℝ) ≤ 2 ^ 2),
      Real.sqrt_sq (by norm_num : (0:ℝ) ≤ 2)]
  rw [← h1, ← Real.sqrt_sq_eq_abs ((x : ℝ) - m),
    Real.sqrt_lt_sqrt_iff (mul_nonneg (by norm_num) hv')]
  constructor <;> intro hh <;> exact_mod_cast hh

/-- The left fold of `min` lands in the seeded list. -/
lemma foldl_min_mem (l : List ℚ) : ∀ a : ℚ, l.foldl min a ∈ a :: l := by
  induction l with
  | nil => intro a; simp
  | cons b t ih =>
    intro a
    rw [List.foldl_cons]
    rcases List.mem_cons.mp (ih (min a b)) with h1 | h1
    · rcases min_choice a b with hc | hc
      · rw [h1, hc]; simp
      · rw [h1, hc]; simp
    · exact List.mem_cons_of_mem a (List.mem_cons_of_mem b h1)

/-- The left fold of `min` bounds the seeded list from below. -/
lemma foldl_min_le (l : List ℚ) : ∀ a x : ℚ, x ∈ a :: l → l.foldl min a ≤ x := by
  induction l with
  | nil =>
    intro a x hx
    simp only [List.mem_singleton] at hx
    simp [hx]
  | cons b t ih =>
    intro a x hx
    rw [List.foldl_cons]
    rcases List.mem_cons.mp hx with hxa | hx'
    · rw [hxa]
      exact le_trans (ih (min a b) (min a b) (by simp)) (min_le_left a b)
    rcases List.mem_cons.mp hx' with hxb | hx''
    · rw [hxb]
      exact le_trans (ih (min a b) (min a b) (by simp)) (min_le_right a b)
    · exact ih (min a b) x (List.mem_cons_of_mem _ hx'')

/-- The left fold of `max` lands in the seeded list. -/
lemma foldl_max_mem (l : List ℚ) : ∀ a : ℚ, l.foldl max a ∈ a :: l := by
  induction l with
  | nil => intro a; simp
  | cons b t ih =>
    intro a
    rw [List.foldl_cons]
    rcases List.mem_cons.mp (ih (max a b)) with h1 | h1
    · rcases max_choice a b with hc | hc
      · rw [h1, hc]; simp
      · rw [h1, hc]; simp
    · exact List.mem_cons_of_mem a (List.mem_cons_of_mem b h1)

/-- The left fold of `max` bounds the seeded list from above. -/
lemma le_foldl_max (l : List ℚ) : ∀ a x : ℚ, x ∈ a :: l → x ≤ l.foldl max a := by
  induction l with
  | nil =>
    intro a x hx
    simp only [List.mem_singleton] at hx
    simp [hx]
  | cons b t ih =>
    intro a x hx
    rw [List.foldl_cons]
    rcases List.mem_cons.mp hx with hxa | hx'
    · rw [hxa]
      exact le_trans (le_max_left a b) (ih (max a b) (max a b) (by simp))
    rcases List.mem_cons.mp hx' with hxb | hx''
    · rw [hxb]
      exact le_trans (le_max_right a b) (ih (max a b) (max a b) (by simp))
    · exact ih (max a b) x (List.mem_cons_of_mem _ hx'')

/-- `minQ` of a non-empty list is an element of it. -/
lemma minQ_mem (l : List ℚ) (h : l ≠ []) : minQ l ∈ l := by
  cases l with
  | nil => exact absurd rfl h
  | cons a t => exact foldl_min_mem t a

/-- `minQ` of a non-empty list bounds it from below. -/
lemma minQ_le (l : List ℚ) (h : l ≠ []) : ∀ x ∈ l, minQ l ≤ x := by
  cases l with
  | nil => exact absurd rfl h
  | cons a t => exact fun x hx => foldl_min_le t a x hx

/-- `maxQ` of a non-empty list is an element of it. -/
lemma maxQ_mem (l : List ℚ) (h : l ≠ []) : maxQ l ∈ l := by
  cases l with
  | nil => exact absurd rfl h
  | cons a t => exact foldl_max_mem t a

/-- `maxQ` of a non-empty list bounds it from above. -/
lemma le_maxQ (l : List ℚ) (h : l ≠ []) : ∀ x ∈ l, x ≤ maxQ l := by
  cases l with
  | nil => exact absurd rfl h
  | cons a t => exact fun x hx => le_foldl_max t a x hx

/-!  Claim C2: what the outlier detectors flag. -/

/-- C2 counterexample: in the collection `ex6`, record 6 satisfies the
claimed population rule — its amount deviates from the mean by more than
twice the population standard deviation — yet the Streamlit detector flags
nothing, because it uses the sample (ddof = 1) standard deviation of its
own statistics engine, not the population one. -/
theorem C2_sample_std_counterexample :
    (6 : Nat) ∉ St.detect_outliers ex6 ∧
    (∃ e ∈ ex6, e.id = 6 ∧
      2 * Real.sqrt (popVarQ (amounts ex6) : ℝ)
        < |(e.amount : ℝ) - (meanQ (amounts ex6) : ℝ)|) := by
  constructor
  · have hempty : St.detect_outliers ex6 = ∅ := by
      norm_num [St.detect_outliers, sampleVarQ, meanQ, amounts, ex6]
    simp [hempty]
  · refine ⟨⟨6, 3, "Food", "2024-01-06", ""⟩, by simp [ex6], rfl, ?_⟩
    refine (two_sqrt_lt_abs_iff _ (meanQ (amounts ex6)) (popVarQ (amounts ex6))
      (popVarQ_nonneg _)).mpr ?_
    norm_num [popVarQ, meanQ, amounts, ex6]

/-- C2 amended: each detector flags exactly the ids whose record deviates
from the collection mean by more than twice the standard deviation its own
statistics engine computes — the population one for the desktop detector
(as the claim states), the sample (ddof = 1) one for the Streamlit
detector — and both flagged sets contain only ids of the collection. -/
theorem C2_outliers_amended (es : List Expense) (i : Nat) (h1 : es ≠ []) :
    (∃ st : Tk.Stats, Tk.get_stats es = some st ∧
      (i ∈ Tk.detect_outliers es ↔
        ∃ e ∈ es, e.id = i ∧
          2 * Real.sqrt (st.var : ℝ) < |(e.amount : ℝ) - (st.average : ℝ)|)) ∧
    (2 ≤ es.length →
      ∃ v : ℚ, sampleVarQ (amounts es) = some v ∧
        (i ∈ St.detect_outliers es ↔
          ∃ e ∈ es, e.id = i ∧
            2 * Real.sqrt (v : ℝ) < |(e.amount : ℝ) - (meanQ (amounts es) : ℝ)|)) ∧
    (i ∈ Tk.detect_outliers es → i ∈ es.map (·.id)) ∧
    (i ∈ St.detect_outliers es → i ∈ es.map (·.id)) := by
  have hne : es.isEmpty = false := by simpa [List.isEmpty_iff] using h1
  refine ⟨⟨_, Tk.get_stats_someTk es hne, ?_⟩, ?_, ?_, ?_⟩
  · rw [Tk.mem_detect_outliersTk]
    refine exists_congr fun e => and_congr_right fun _ => and_congr_right fun _ => ?_
    exact (two_sqrt_lt_abs_iff e.amount (meanQ (amounts es)) (popVarQ (amounts es))
      (popVarQ_nonneg _)).symm
  · intro hlen
    have hlen2 : ¬ (amounts es).length < 2 := by
      simp only [amounts, List.length_map]
      omega
    have hsv : sampleVarQ (amounts es)
        = some (((amounts es).map fun a => (a - meanQ (amounts es)) ^ 2).sum
            / (((amounts es).length : ℚ) - 1)) := by
      unfold sampleVarQ
      rw [if_neg hlen2]
    refine ⟨_, hsv, ?_⟩
    rw [St.mem_detect_outliersSt es _ hsv i]
    refine exists_congr fun e => and_congr_right fun _ => and_congr_right fun _ => ?_
    exact (two_sqrt_lt_abs_iff e.amount (meanQ (amounts es)) _
      (sampleVarQ_some_nonneg _ _ hsv)).symm
  · intro hi
    rw [Tk.mem_detect_outliersTk] at hi
    obtain ⟨e, he, hid, _⟩ := hi
    exact List.mem_map.mpr ⟨e, he, hid⟩
  · intro hi
    cases hsv : sampleVarQ (amounts es) with
    | none =>
      unfold St.detect_outliers at hi
      simp only [hsv] at hi
      simp at hi
    | some v =>
      rw [St.mem_detect_outliersSt es v hsv i] at hi
      obtain ⟨e, he, hid, _⟩ := hi
      exact List.mem_map.mpr ⟨e, he, hid⟩

/-- Witness for C2 amended at the concrete two-record collection. -/
theorem C2_outliers_amended_witness :
    (∃ st : Tk.Stats, Tk.get_stats exPair = some st ∧
      ((2 : Nat) ∈ Tk.detect_outliers exPair ↔
        ∃ e ∈ exPair, e.id = 2 ∧
          2 * Real.sqrt (st.var : ℝ) < |(e.amount : ℝ) - (st.average : ℝ)|)) ∧
    (2 ≤ exPair.length →
      ∃ v : ℚ, sampleVarQ (amounts exPair) = some v ∧
        ((2 : Nat) ∈ St.detect_outliers exPair ↔
          ∃ e ∈ exPair, e.id = 2 ∧
            2 * Real.sqrt (v : ℝ)
              < |(e.amount : ℝ) - (meanQ (amounts exPair) : ℝ)|)) ∧
    ((2 : Nat) ∈ Tk.detect_outliers exPair → (2 : Nat) ∈ exPair.map (·.id)) ∧
    ((2 : Nat) ∈ St.detect_outliers exPair → (2 : Nat) ∈ exPair.map (·.id)) :=
  C2_outliers_amended exPair 2 (by decide)

/-!  Claim C3: the KPI set of the statistics engines. -/

/-- C3 counterexample: on the two-record collection with amounts 0 and 4
the Streamlit engine returns variance 8 — the sample (ddof = 1) variance —
while the population variance (dividing the squared deviations by n) of
the very same collection is 4. -/
theorem C3_sample_variance_counterexample :
    St.get_stats exPair = some ⟨4, 2, 2, 0, 4, some 8⟩ ∧
    ((amounts exPair).map fun a => (a - meanQ (amounts exPair)) ^ 2).sum
      / ((amounts exPair).length : ℚ) = 4 ∧
    (8 : ℚ) ≠ 4 := by
  refine ⟨?_, ?_, by norm_num⟩
  · norm_num [St.get_stats, amounts, exPair, meanQ, medianQ, minQ, maxQ, sampleVarQ,
      List.insertionSort, List.orderedInsert]
  · norm_num [amounts, exPair, meanQ]

/-- C3 amended: on every non-empty collection the desktop engine returns
sum, mean, median, minimum, maximum and the population (ddof = 0) variance
and standard deviation of the amounts, exactly as the claim states; the
Streamlit engine returns the same order statistics but the sample
(ddof = 1) variance — dividing by n − 1, and undefined (NaN) on a
singleton — instead of the population one. -/
theorem C3_stats_amended (es : List Expense) (h1 : es ≠ []) :
    ∃ st : Tk.Stats, ∃ stS : St.Stats,
      Tk.get_stats es = some st ∧ St.get_stats es = some stS ∧
      st.total = (amounts es).sum ∧
      st.average * ((amounts es).length : ℚ) = st.total ∧
      st.min ∈ amounts es ∧ (∀ a ∈ amounts es, st.min ≤ a) ∧
      st.max ∈ amounts es ∧ (∀ a ∈ amounts es, a ≤ st.max) ∧
      (∃ w : List ℚ, w.Perm (amounts es) ∧ w.Sorted (· ≤ ·) ∧
        st.median = (if (amounts es).length % 2 = 1
          then w.getD ((amounts es).length / 2) 0
          else (w.getD ((amounts es).length / 2 - 1) 0
            + w.getD ((amounts es).length / 2) 0) / 2)) ∧
      st.var * ((amounts es).length : ℚ)
        = ((amounts es).map fun a => (a - st.average) ^ 2).sum ∧
      Tk.get_stats_std es = Real.sqrt (st.var : ℝ) ∧
      stS.total = st.total ∧ stS.average = st.average ∧ stS.median = st.median ∧
      stS.min = st.min ∧ stS.max = st.max ∧
      (2 ≤ es.length →
        stS.var = some (((amounts es).map fun a => (a - st.average) ^ 2).sum
          / ((es.length : ℚ) - 1))) ∧
      (es.length = 1 → stS.var = none) := by
  have hne : es.isEmpty = false := by simpa [List.isEmpty_iff] using h1
  have hAne : amounts es ≠ [] := by simpa [amounts] using h1
  have hn : ((amounts es).length : ℚ) ≠ 0 := by
    have hl : (amounts es).length ≠ 0 := fun h0 => hAne (List.length_eq_zero.mp h0)
    exact_mod_cast hl
  refine ⟨_, _, Tk.get_stats_someTk es hne, St.get_stats_someSt es hne, rfl, ?_, ?_, ?_,
    ?_, ?_, ?_, ?_, rfl, rfl, rfl, rfl, rfl, rfl, ?_, ?_⟩
  · show meanQ (amounts es) * ((amounts es).length : ℚ) = (amounts es).sum
    unfold meanQ
    exact div_mul_cancel₀ _ hn
  · exact minQ_mem _ hAne
  · exact minQ_le _ hAne
  · exact maxQ_mem _ hAne
  · exact le_maxQ _ hAne
  · exact ⟨(amounts es).insertionSort (· ≤ ·), List.perm_insertionSort _ _,
      List.sorted_insertionSort _ _, rfl⟩
  · show popVarQ (amounts es) * ((amounts es).length : ℚ)
      = ((amounts es).map fun a => (a - meanQ (amounts es)) ^ 2).sum
    unfold popVarQ
    exact div_mul_cancel₀ _ hn
  · intro hlen
    have hlen2 : ¬ (amounts es).length < 2 := by
      simp only [amounts, List.length_map]
      omega
    show sampleVarQ (amounts es) = _
    unfold sampleVarQ
    rw [if_neg hlen2, show ((amounts es).length : ℚ) = (es.length : ℚ) by
      simp [amounts]]
  · intro hlen1
    have hlen2 : (amounts es).length < 2 := by
      simp [amounts, hlen1]
    show sampleVarQ (amounts es) = none
    unfold sampleVarQ
    rw [if_pos hlen2]

/-- Witness for C3 amended at the concrete two-record collection. -/
theorem C3_stats_amended_witness :
    ∃ st : Tk.Stats, ∃ stS : St.Stats,
      Tk.get_stats exPair = some st ∧ St.get_stats exPair = some stS ∧
      st.total = (amounts exPair).sum ∧
      st.average * ((amounts exPair).length : ℚ) = st.total ∧
      st.min ∈ amounts exPair ∧ (∀ a ∈ amounts exPair, st.min ≤ a) ∧
      st.max ∈ amounts exPair ∧ (∀ a ∈ amounts exPair, a ≤ st.max) ∧
      (∃ w : List ℚ, w.Perm (amounts exPair) ∧ w.Sorted (· ≤ ·) ∧
        st.median = (if (amounts exPair).length % 2 = 1
          then w.getD ((amounts exPair).length / 2) 0
          else (w.getD ((amounts exPair).length / 2 - 1) 0
            + w.getD ((amounts exPair).length / 2) 0) / 2)) ∧
      st.var * ((amounts exPair).length : ℚ)
        = ((amounts exPair).map fun a => (a - st.average) ^ 2).sum ∧
      Tk.get_stats_std exPair = Real.sqrt (st.var : ℝ) ∧
      stS.total = st.total ∧ stS.average = st.average ∧ stS.median = st.median ∧
      stS.min = st.min ∧ stS.max = st.max ∧
      (2 ≤ exPair.length →
        stS.var = some (((amounts exPair).map fun a => (a - st.average) ^ 2).sum
          / ((exPair.length : ℚ) - 1))) ∧
      (exPair.length = 1 → stS.var = none) :=
  C3_stats_amended exPair (by decide)

/-!  Claim C6: the filter engine's description clause. -/

/-- A lone `%` matches every string. -/
lemma likeMatch_pct_nil (s : List Char) : likeMatch ['%'] s = true := by
  induction s with
  | nil => simp [likeMatch]
  | cons c t ih => simp [likeMatch, ih]

/-- A wildcard-free pattern followed by `%` matches exactly the strings it
case-insensitively prefixes. -/
lemma likeMatch_wildfree_pfx : ∀ kw : List Char,
    (∀ c ∈ kw, ¬(c = '%' ∨ c = '_')) → ∀ s : List Char,
    likeMatch (kw ++ ['%']) s
      = isPrefC (kw.map Char.toLower) (s.map Char.toLower) := by
  intro kw
  induction kw with
  | nil =>
    intro _ s
    simp [likeMatch_pct_nil, isPrefC]
  | cons k ks ih =>
    intro hw s
    have hk := hw k (List.mem_cons_self k ks)
    have hk1 : ¬ k = '%' := fun h => hk (Or.inl h)
    have hk2 : decide (k = '_') = false := decide_eq_false fun h => hk (Or.inr h)
    have ihs := ih fun c hc => hw c (List.mem_cons_of_mem k hc)
    cases s with
    | nil => simp [likeMatch, isPrefC, hk1]
    | cons c t => simp [likeMatch, isPrefC, hk1, hk2, ihs]

/-- `LIKE '%kw%'` with a wildcard-free keyword is exactly case-insensitive
substring containment. -/
lemma likeMatch_wrap : ∀ kw : List Char,
    (∀ c ∈ kw, ¬(c = '%' ∨ c = '_')) → ∀ s : List Char,
    likeMatch ('%' :: (kw ++ ['%'])) s
      = containsSub (kw.map Char.toLower) (s.map Char.toLower) := by
  intro kw hw s
  induction s with
  | nil =>
    simp [likeMatch, containsSub, likeMatch_wildfree_pfx kw hw []]
  | cons c t ih =>
    simp [likeMatch, containsSub, likeMatch_wildfree_pfx kw hw (c :: t), ih]

/-- C6 counterexample: with the keyword "_" the source filter returns the
record whose description is "abc" — the SQL `LIKE` wildcard `_` matches the
character "a" — although "_" is not a substring of "abc", so the filter is
not plain case-insensitive substring containment. -/
theorem C6_like_wildcard_counterexample :
    Tk.get_filtered_expenses storeAbc none none none none none (some "_")
      = [⟨1, 5, "Food", "2024-01-01", "abc"⟩] ∧
    ciContains "_" "abc" = false := by
  constructor
  · simp [Tk.get_filtered_expenses, storeAbc, givenStr, givenCat, likeMatch]
  · decide

/-- C6 amended: the source filter returns exactly the stored records
satisfying every supplied clause, with the description clause being SQL
`LIKE '%keyword%'` matching; whenever the keyword holds no `LIKE` wildcard
(`%`, `_`) this coincides with the spec's predicate — all clauses as
stated, the description one being case-insensitive substring containment. -/
theorem C6_filter_amended (s : Store) (sd ed cat : Option String)
    (mi ma : Option ℚ) (kw : Option String) (e : Expense)
    (hw : noWildOpt kw = true) :
    e ∈ Tk.get_filtered_expenses s sd ed cat mi ma kw ↔
      e ∈ s.rows ∧ Tk.matchesSpec sd ed cat mi ma kw e = true := by
  unfold Tk.get_filtered_expenses Tk.matchesSpec
  rw [List.mem_filter]
  refine and_congr_right fun _ => ?_
  suffices h : (match givenStr kw with
      | some k => likeMatch ('%' :: (k.data ++ ['%'])) e.description.data
      | none => true)
      = (match givenStr kw with
      | some k => ciContains k e.description
      | none => true) by
    rw [h]
  cases hg : givenStr kw with
  | none => rfl
  | some k =>
    have hnw : noWild k = true := by
      cases kw with
      | none => simp [givenStr] at hg
      | some k0 =>
        simp only [givenStr] at hg
        by_cases h0 : k0 = ""
        · rw [if_pos h0] at hg
          exact absurd hg (by simp)
        · rw [if_neg h0] at hg
          have hk0 : k0 = k := Option.some.inj hg
          have hw0 : noWild k0 = true := by simpa [noWildOpt] using hw
          rw [← hk0]
          exact hw0
    have hchars : ∀ c ∈ k.data, ¬(c = '%' ∨ c = '_') := by
      have hall : ∀ x ∈ k.data, ¬x = '%' ∧ ¬x = '_' := by
        simpa [noWild, List.all_eq_true] using hnw
      intro c hc
      rcases hall c hc with ⟨ha, hb⟩
      rintro (hcc | hcc)
      · exact ha hcc
      · exact hb hcc
    show likeMatch ('%' :: (k.data ++ ['%'])) e.description.data
      = ciContains k e.description
    rw [likeMatch_wrap k.data hchars e.description.data]
    rfl

/-- Witness for C6 amended: the keyword "B" (no wildcard) selects the
record described "abc" case-insensitively. -/
theorem C6_filter_amended_witness :
    (⟨1, 5, "Food", "2024-01-01", "abc"⟩ : Expense)
      ∈ Tk.get_filtered_expenses storeAbc none none none none none (some "B") ↔
      (⟨1, 5, "Food", "2024-01-01", "abc"⟩ : Expense) ∈ storeAbc.rows ∧
        Tk.matchesSpec none none none none none (some "B")
          ⟨1, 5, "Food", "2024-01-01", "abc"⟩ = true :=
  C6_filter_amended storeAbc none none none none none (some "B")
    ⟨1, 5, "Food", "2024-01-01", "abc"⟩ (by decide)
